import Mathlib

/-!
# Shallow embedding of `visualsearchservice/app/vector_store.py`

This file models the `VectorStore` class (FAISS-backed vector index +
parallel product-id list + product-metadata dict) and its operations
`add_product`, `search`, `save_index`, `load_index`, `get_index_size`.

Modelling conventions:
* Python floats are idealised as rationals (`ℚ`) for the stored vectors and
  distances, and as reals (`ℝ`) for the similarity scores and thresholds,
  since `similarity = exp(-distance)` is transcendental.
* `faiss.IndexFlatL2` is modelled by `FaissIndex`: a fixed dimension `d` and
  the append-only list of stored vectors.  Its `search(q, k)` call is
  modelled as exact brute-force selection of the `k` nearest stored vectors.
  Per the FAISS documentation, `IndexFlatL2` returns **squared** L2
  distances (the square root is not taken), ascending, with ties broken by
  ascending insertion position.
* The Python dict `product_metadata` is modelled as an association list with
  first-match lookup; dict assignment `d[k] = v` is modelled by consing the
  new binding in front, which preserves lookup semantics.
* File-system state is made explicit: `Disk` holds the two snapshot files
  (`data/faiss_index.bin` and `data/metadata.pkl`).  A file is `none` when
  absent; a present file holds `none` when its bytes fail to decode
  (`faiss.read_index` / `pickle.load` raising), and `some` of the decoded
  payload otherwise.
* Python exceptions become `Except` errors: the `ValueError` raised on a
  feature-dimension mismatch (and the equivalent check inside FAISS) is
  `VErr.dimensionMismatch`; any exception re-raised by `load_index`
  (unreadable or undecodable snapshot part) is `VErr.snapshotCorrupt`.
  An `.error` result models "the operation raised"; since the model is
  functional, the caller's store is unchanged exactly when the Python
  method raises before mutating `self`.
-/

deriving instance DecidableEq for Except

namespace VectorStoreModel

/-- A product's metadata dict (`name`, `price`, `image_url`, ...), modelled
as an association list from field name to field value. -/
abbrev Meta := List (String × String)

/-- The `product_metadata` dict: product id → metadata dict. -/
abbrev MetaMap := List (String × Meta)

/-- Model of `faiss.IndexFlatL2`: fixed dimension `d` plus the append-only
list of stored vectors (`ntotal = vecs.length`). -/
structure FaissIndex where
  d : ℕ
  vecs : List (List ℚ)
deriving DecidableEq

/-- Model of the `VectorStore` object's fields: `self.dimension`,
`self.index`, `self.product_ids`, `self.product_metadata`. -/
structure Store where
  dimension : ℕ
  index : FaissIndex
  product_ids : List String
  product_metadata : MetaMap
deriving DecidableEq

/-- `VectorStore.__init__(dimension)`: empty FAISS index of the given
dimension, empty id list, empty metadata dict. -/
def freshStore (d : ℕ) : Store :=
  { dimension := d, index := { d := d, vecs := [] }, product_ids := [],
    product_metadata := [] }

/-- `VectorStore.get_index_size()`, i.e. `self.index.ntotal`. -/
def size (s : Store) : ℕ := s.index.vecs.length

/-- Error taxonomy: the `ValueError` on a vector-dimension mismatch, and the
exceptions re-raised by `load_index` on an unreadable/undecodable snapshot. -/
inductive VErr where
  | dimensionMismatch
  | snapshotCorrupt
deriving DecidableEq

/-- Squared L2 distance between two vectors (what `IndexFlatL2` computes:
the square root is never taken). -/
def sqDist (q v : List ℚ) : ℚ :=
  (List.zipWith (fun a b => (a - b) ^ 2) q v).sum

/-- `faiss.Index.add`: appends the vector; FAISS raises when the vector's
length differs from the index dimension. -/
def indexAdd (idx : FaissIndex) (v : List ℚ) : Except VErr FaissIndex :=
  if v.length ≠ idx.d then .error .dimensionMismatch
  else .ok { d := idx.d, vecs := idx.vecs ++ [v] }

/-- Python dict assignment `self.product_metadata[product_id] = metadata`:
cons the new binding; `List.lookup` finds the most recent one. -/
def metaInsert (m : MetaMap) (pid : String) (v : Meta) : MetaMap :=
  (pid, v) :: m

/-- `VectorStore.add_product(product_id, features, metadata)`:
checks `features.shape[0] != self.dimension` (raising `ValueError`), then
appends to the FAISS index, appends to `product_ids`, and — only when
`metadata` is truthy (not `None` and not the empty dict) — stores it in
`product_metadata`.  The dimension checks happen before any mutation. -/
def add_product (s : Store) (pid : String) (features : List ℚ)
    (metadata : Option Meta) : Except VErr Store :=
  if features.length ≠ s.dimension then .error .dimensionMismatch
  else
    match indexAdd s.index features with
    | .error e => .error e
    | .ok idx' =>
        .ok { s with
          index := idx'
          product_ids := s.product_ids ++ [pid]
          product_metadata :=
            match metadata with
            | some m =>
                if m.isEmpty then s.product_metadata
                else metaInsert s.product_metadata pid m
            | none => s.product_metadata }

/-- Candidate order used by the FAISS flat search: ascending squared
distance, ties broken by ascending insertion position.  A candidate is a
pair `(position, squared distance)`. -/
def candLE (a b : ℕ × ℚ) : Prop :=
  a.2 < b.2 ∨ (a.2 = b.2 ∧ a.1 ≤ b.1)

instance : DecidableRel candLE := fun _ _ =>
  inferInstanceAs (Decidable (_ ∨ _))

instance candLE_total : IsTotal (ℕ × ℚ) candLE where
  total a b := by
    rcases lt_trichotomy a.2 b.2 with h | h | h
    · exact Or.inl (Or.inl h)
    · rcases Nat.le_total a.1 b.1 with h1 | h1
      · exact Or.inl (Or.inr ⟨h, h1⟩)
      · exact Or.inr (Or.inr ⟨h.symm, h1⟩)
    · exact Or.inr (Or.inl h)

instance candLE_trans : IsTrans (ℕ × ℚ) candLE where
  trans a b c hab hbc := by
    rcases hab with h1 | ⟨h1, h1'⟩ <;> rcases hbc with h2 | ⟨h2, h2'⟩
    · exact Or.inl (h1.trans h2)
    · exact Or.inl (h2 ▸ h1)
    · exact Or.inl (h1 ▸ h2)
    · exact Or.inr ⟨h1.trans h2, h1'.trans h2'⟩

/-- `index.search`'s distance computation: the squared L2 distance from the
query to the stored vector at every position. -/
def distance_all (idx : FaissIndex) (q : List ℚ) : List (ℕ × ℚ) :=
  idx.vecs.enum.map (fun iv => (iv.1, sqDist q iv.2))

/-- `self.index.search(query, k)`: FAISS raises when the query's length
differs from the index dimension; otherwise it returns the `k` candidates
with smallest squared distance, ascending, ties by ascending position. -/
def faissSearch (idx : FaissIndex) (q : List ℚ) (k : ℕ) :
    Except VErr (List (ℕ × ℚ)) :=
  if q.length ≠ idx.d then .error .dimensionMismatch
  else .ok ((List.insertionSort candLE (distance_all idx q)).take k)

/-- One element of `search`'s result (`SimilarProduct`).  The similarity
score carried by the Python object is `exp(-dist)` (see `simScore`); the
model keeps the rational squared distance, from which the score is derived.
`metadata` stands for the looked-up dict from which `product_name`,
`product_image_url` and `price` are projected. -/
structure Match where
  product_id : String
  dist : ℚ
  metadata : Meta
deriving DecidableEq

/-- The similarity score attached to a match: `exp(-distance)`. -/
noncomputable def simScore (m : Match) : ℝ := Real.exp (-(m.dist : ℝ))

open Classical in
/-- The Boolean kept by the filter `if similarity < threshold: continue`:
a candidate at squared distance `d` survives iff `¬ (exp (-d) < t)`. -/
noncomputable def simKeep (t : ℝ) (d : ℚ) : Bool :=
  decide (¬ (Real.exp (-(d : ℝ)) < t))

/-- Building one `SimilarProduct` from a surviving candidate:
`product_id = self.product_ids[idx]` and
`metadata = self.product_metadata.get(product_id, {})`. -/
def mkMatch (s : Store) (c : ℕ × ℚ) : Match :=
  let pid := s.product_ids.getD c.1 ""
  { product_id := pid, dist := c.2,
    metadata := (List.lookup pid s.product_metadata).getD [] }

/-- `VectorStore.search(query_features, top_k, threshold)`:
returns `[]` immediately when the index is empty; otherwise asks FAISS for
`min(top_k, ntotal)` nearest candidates, drops those whose similarity
`exp(-d)` is below the threshold, and attaches product id and metadata. -/
noncomputable def search (s : Store) (q : List ℚ) (k : ℕ) (t : ℝ) :
    Except VErr (List Match) :=
  if size s = 0 then .ok []
  else
    match faissSearch s.index q (min k (size s)) with
    | .error e => .error e
    | .ok cands =>
        .ok ((cands.filter (fun c => simKeep t c.2)).map (mkMatch s))

/-- One on-disk file: absent, present but undecodable (reading it raises),
or present with a decoded payload. -/
inductive SnapFile (α : Type) where
  | absent
  | corrupt
  | good (payload : α)
deriving DecidableEq

/-- The decoded contents of `data/metadata.pkl`: the pickled
`{product_ids, product_metadata}` dict. -/
structure MetaBlob where
  product_ids : List String
  product_metadata : MetaMap
deriving DecidableEq

/-- The two snapshot files (`data/faiss_index.bin`, `data/metadata.pkl`). -/
structure Disk where
  indexFile : SnapFile FaissIndex
  metadataFile : SnapFile MetaBlob
deriving DecidableEq

/-- The initial file-system state: neither snapshot file exists. -/
def emptyDisk : Disk := { indexFile := .absent, metadataFile := .absent }

/-- `VectorStore.save_index()`: writes the FAISS index and pickles
`{product_ids, product_metadata}` to the two files. -/
def save_index (s : Store) : Disk :=
  { indexFile := .good s.index,
    metadataFile := .good ⟨s.product_ids, s.product_metadata⟩ }

/-- `VectorStore.load_index()`: returns silently (store untouched) when the
index file does not exist; re-raises when reading/decoding either part
fails; otherwise replaces `self.index`, `self.product_ids` and
`self.product_metadata` with the decoded contents.  Note: the decoded
index's vector count is **not** compared against the decoded id list's
length — no such check appears in the source. -/
def load_index (s : Store) (dk : Disk) : Except VErr Store :=
  match dk.indexFile with
  | .absent => .ok s
  | .corrupt => .error .snapshotCorrupt
  | .good idx =>
      match dk.metadataFile with
      | .absent => .error .snapshotCorrupt
      | .corrupt => .error .snapshotCorrupt
      | .good pm =>
          .ok { s with index := idx, product_ids := pm.product_ids,
                       product_metadata := pm.product_metadata }

/-- The whole-system state: the in-memory store plus the snapshot files. -/
structure GState where
  store : Store
  disk : Disk

/-- States reachable from a fresh `VectorStore` (with no snapshot files) by
successful `add_product`, `search`, `save_index` and `load_index` calls. -/
inductive Reach : GState → Prop where
  | init (d : ℕ) : Reach { store := freshStore d, disk := emptyDisk }
  | add {g : GState} {s' : Store} (pid : String) (f : List ℚ)
      (m : Option Meta) : Reach g → add_product g.store pid f m = .ok s' →
      Reach { store := s', disk := g.disk }
  | query {g : GState} {r : List Match} (q : List ℚ) (k : ℕ) (t : ℝ) :
      Reach g → search g.store q k t = .ok r → Reach g
  | save {g : GState} : Reach g →
      Reach { store := g.store, disk := save_index g.store }
  | load {g : GState} {s' : Store} : Reach g →
      load_index g.store g.disk = .ok s' → Reach { store := s', disk := g.disk }

/-- The parallel-array invariant: `product_ids` and the FAISS index hold the
same number of entries. -/
def aligned (s : Store) : Prop := s.product_ids.length = size s

/-- Disk states occurring along reachable runs: either no snapshot was ever
written, or the two files hold a decodable snapshot whose id-list length
matches its index's vector count. -/
def diskOK (dk : Disk) : Prop :=
  dk = emptyDisk ∨
    ∃ idx pids pmeta,
      dk = { indexFile := .good idx,
             metadataFile := .good ⟨pids, pmeta⟩ } ∧
      pids.length = idx.vecs.length

end VectorStoreModel

namespace VectorStoreModel

/-- C1: saving any `VectorStore` state and loading it into a fresh store of
the same dimension yields a store with the same `size()`, the same embedding
at every position, and the same metadata for every product id. -/
theorem c1_save_load_roundtrip (s : Store) :
    ∃ s2 : Store,
      load_index (freshStore s.dimension) (save_index s) = .ok s2 ∧
      size s2 = size s ∧
      (∀ i : ℕ, s2.index.vecs.get? i = s.index.vecs.get? i) ∧
      (∀ pid : String,
        List.lookup pid s2.product_metadata =
          List.lookup pid s.product_metadata) :=
  ⟨s, rfl, rfl, fun _ => rfl, fun _ => rfl⟩

/-- C3: `add_product` with an embedding of the wrong length raises the
dimension-mismatch error.  The guard fires before either structure is
touched, so no `ok` store is produced: in this functional model that is
exactly the statement that the vector index, the id list and the metadata
map — hence `size()` and all stored entries — are unchanged. -/
theorem c3_add_product_dimension_guard (s : Store) (pid : String)
    (features : List ℚ) (metadata : Option Meta)
    (h : features.length ≠ s.dimension) :
    add_product s pid features metadata = .error .dimensionMismatch := by
  unfold add_product
  rw [if_pos h]

theorem c3_witness :
    (([1, 2, 3] : List ℚ).length ≠ (freshStore 4).dimension) ∧
      add_product (freshStore 4) "X" [1, 2, 3] none =
        .error .dimensionMismatch :=
  ⟨by decide, c3_add_product_dimension_guard _ _ _ _ (by decide)⟩

/-- The store obtained by loading `badDisk`: one stored vector but an empty
product-id list. -/
def mismatchedStore : Store :=
  { dimension := 4, index := { d := 4, vecs := [[0, 0, 0, 0]] },
    product_ids := [], product_metadata := [] }

/-- A snapshot whose two parts both decode but disagree on the entry count:
the index part holds one vector, the metadata part an empty id list. -/
def badDisk : Disk :=
  { indexFile := .good { d := 4, vecs := [[0, 0, 0, 0]] },
    metadataFile := .good ⟨[], []⟩ }

/-- C4 counterexample: on a snapshot whose decoded index holds 1 embedding
while the decoded product-id list is empty, `load_index` does **not** raise
the corruption error — it silently accepts the count mismatch, producing a
store whose `size()` differs from its id-list length. -/
theorem c4_counterexample :
    load_index (freshStore 4) badDisk ≠ .error .snapshotCorrupt ∧
      load_index (freshStore 4) badDisk = .ok mismatchedStore ∧
      size mismatchedStore ≠ mismatchedStore.product_ids.length := by
  decide

/-- C4 (amended): `load_index` raises no error and leaves the store
unchanged — hence a fresh store stays empty — when the index snapshot file
does not exist, and raises the snapshot-corruption error whenever the index
file exists but either snapshot part fails to read or decode.  It does
**not** compare the decoded index's embedding count with the decoded
product-id list's length: a count mismatch is silently accepted
(see `c4_counterexample`). -/
theorem c4_load_error_handling (s : Store) (dk : Disk) :
    (dk.indexFile = .absent → load_index s dk = .ok s) ∧
    (dk.indexFile = .corrupt → load_index s dk = .error .snapshotCorrupt) ∧
    (∀ idx : FaissIndex, dk.indexFile = .good idx →
      dk.metadataFile = .absent ∨ dk.metadataFile = .corrupt →
      load_index s dk = .error .snapshotCorrupt) := by
  obtain ⟨fi, mf⟩ := dk
  cases fi <;> cases mf <;> simp [load_index]

theorem c4_witness :
    emptyDisk.indexFile = SnapFile.absent ∧
      load_index (freshStore 2) emptyDisk = .ok (freshStore 2) :=
  ⟨rfl, (c4_load_error_handling (freshStore 2) emptyDisk).1 rfl⟩

/-- C8: `search` on a store with `size() == 0` returns the empty list and
raises no error, for every query embedding, top_k and threshold. -/
theorem c8_empty_search (s : Store) (q : List ℚ) (k : ℕ) (t : ℝ)
    (h : size s = 0) : search s q k t = .ok [] := by
  unfold search
  rw [if_pos h]

theorem c8_witness :
    size (freshStore 1280) = 0 ∧
      search (freshStore 1280) [1, 2, 3] 5 (7 / 10 : ℝ) = .ok [] :=
  ⟨rfl, c8_empty_search _ _ _ _ rfl⟩

end VectorStoreModel

namespace VectorStoreModel

/-- Anatomy of a successful `add_product`: both dimension checks passed and
each field of the result is the corresponding update of the input store. -/
theorem add_product_ok_spec {s s' : Store} {pid : String} {f : List ℚ}
    {m : Option Meta} (h : add_product s pid f m = .ok s') :
    f.length = s.dimension ∧ f.length = s.index.d ∧
    s'.dimension = s.dimension ∧
    s'.index = { d := s.index.d, vecs := s.index.vecs ++ [f] } ∧
    s'.product_ids = s.product_ids ++ [pid] ∧
    (m = none → s'.product_metadata = s.product_metadata) ∧
    (∀ mm, m = some mm → mm.isEmpty = true →
      s'.product_metadata = s.product_metadata) ∧
    (∀ mm, m = some mm → mm.isEmpty = false →
      s'.product_metadata = metaInsert s.product_metadata pid mm) := by
  by_cases h1 : f.length = s.dimension
  · by_cases h2 : f.length = s.index.d
    · have hne1 : ¬f.length ≠ s.dimension := by simp [h1]
      have hne2 : ¬f.length ≠ s.index.d := by simp [h2]
      unfold add_product indexAdd at h
      rw [if_neg hne1, if_neg hne2] at h
      simp only [Except.ok.injEq] at h
      subst h
      refine ⟨h1, h2, rfl, rfl, rfl, ?_, ?_, ?_⟩
      · rintro rfl; rfl
      · rintro mm rfl hmm; simp [hmm]
      · rintro mm rfl hmm; simp [hmm]
    · exfalso
      have hne1 : ¬f.length ≠ s.dimension := by simp [h1]
      unfold add_product indexAdd at h
      rw [if_neg hne1, if_pos h2] at h
      exact absurd h (by simp)
  · exfalso
    unfold add_product at h
    rw [if_pos h1] at h
    exact absurd h (by simp)

end VectorStoreModel

namespace VectorStoreModel

/-- Helper for C2: along every reachable run, the store satisfies the
parallel-array invariant and the disk is either untouched or holds a
consistent snapshot. -/
theorem reach_aligned_diskOK {g : GState} (h : Reach g) :
    aligned g.store ∧ diskOK g.disk := by
  induction h with
  | init d => exact ⟨rfl, Or.inl rfl⟩
  | add pid f m hg hok ih =>
      obtain ⟨ha, hd⟩ := ih
      obtain ⟨-, -, -, hidx, hids, -⟩ := add_product_ok_spec hok
      refine ⟨?_, hd⟩
      unfold aligned size at ha ⊢
      rw [hids, hidx]
      simp [ha]
  | query q k t hg hok ih => exact ih
  | save hg ih =>
      obtain ⟨ha, -⟩ := ih
      exact ⟨ha, Or.inr ⟨_, _, _, rfl, ha⟩⟩
  | load hg hok ih =>
      obtain ⟨ha, hd⟩ := ih
      rcases hd with he | ⟨idx, pids, pmeta, hdk, hlen⟩
      · rw [he] at hok
        simp only [load_index, emptyDisk] at hok
        obtain rfl := Except.ok.inj hok
        exact ⟨ha, Or.inl he⟩
      · rw [hdk] at hok
        simp only [load_index] at hok
        obtain rfl := Except.ok.inj hok
        exact ⟨hlen, Or.inr ⟨idx, pids, pmeta, hdk, hlen⟩⟩

/-- C2: in every state reachable from a fresh `VectorStore` by successful
`add_product`, `search`, `save_index` and `load_index` calls, the ordered
`product_ids` list has exactly as many entries as the FAISS index has
embeddings (position `i` of each referring to the same product entry, as
`mkMatch` pairs them). -/
theorem c2_parallel_invariant (g : GState) (h : Reach g) :
    g.store.product_ids.length = size g.store :=
  (reach_aligned_diskOK h).1

theorem c2_witness :
    ({ store := { dimension := 2, index := { d := 2, vecs := [[0, 0]] },
                  product_ids := ["A"], product_metadata := [] },
       disk := emptyDisk } : GState).store.product_ids.length =
      size ({ store := { dimension := 2, index := { d := 2, vecs := [[0, 0]] },
                         product_ids := ["A"], product_metadata := [] },
              disk := emptyDisk } : GState).store :=
  c2_parallel_invariant _
    (Reach.add "A" [0, 0] none (Reach.init 2) (by decide))

end VectorStoreModel

namespace VectorStoreModel

/-- `simKeep` keeps exactly the candidates whose similarity reaches the
threshold. -/
theorem simKeep_iff {t : ℝ} {d : ℚ} :
    simKeep t d = true ↔ t ≤ Real.exp (-(d : ℝ)) := by
  simp [simKeep, not_lt]

theorem simKeep_of_le {t : ℝ} {d : ℚ} (h : t ≤ Real.exp (-(d : ℝ))) :
    simKeep t d = true := simKeep_iff.mpr h

/-- A nonpositive threshold keeps every candidate. -/
theorem simKeep_zero (d : ℚ) : simKeep (0 : ℝ) d = true :=
  simKeep_of_le (le_of_lt (Real.exp_pos _))

theorem simKeep_eq_false {t : ℝ} {d : ℚ}
    (h : Real.exp (-(d : ℝ)) < t) : simKeep t d = false := by
  simp [simKeep, not_not, h]

/-- Anatomy of a successful `faissSearch`: the query dimension matched and
the result is the `k`-prefix of the distance-sorted candidate list. -/
theorem faissSearch_ok_spec {idx : FaissIndex} {q : List ℚ} {k : ℕ}
    {cs : List (ℕ × ℚ)} (h : faissSearch idx q k = .ok cs) :
    q.length = idx.d ∧
    cs = (List.insertionSort candLE (distance_all idx q)).take k := by
  unfold faissSearch at h
  by_cases hq : q.length ≠ idx.d
  · rw [if_pos hq] at h
    exact absurd h (by simp)
  · rw [if_neg hq] at h
    exact ⟨not_not.mp hq, (Except.ok.inj h).symm⟩

/-- Anatomy of a successful `search`: either the store was empty and the
result is `[]`, or FAISS returned a candidate list and the result is its
threshold-filtered image under `mkMatch`. -/
theorem search_ok_spec {s : Store} {q : List ℚ} {k : ℕ} {t : ℝ}
    {r : List Match} (h : search s q k t = .ok r) :
    (r = [] ∧ size s = 0) ∨
    ∃ cs, faissSearch s.index q (min k (size s)) = .ok cs ∧
      r = (cs.filter (fun c => simKeep t c.2)).map (mkMatch s) := by
  unfold search at h
  by_cases h0 : size s = 0
  · rw [if_pos h0] at h
    exact Or.inl ⟨(Except.ok.inj h).symm, h0⟩
  · rw [if_neg h0] at h
    cases hc : faissSearch s.index q (min k (size s)) with
    | error e => rw [hc] at h; exact absurd h (by simp)
    | ok cs =>
        rw [hc] at h
        exact Or.inr ⟨cs, rfl, (Except.ok.inj h).symm⟩

/-- The candidate list FAISS hands back is strictly ordered: ascending
squared distance, equal distances strictly ascending in position. -/
theorem faissSearch_sorted {idx : FaissIndex} {q : List ℚ} {k : ℕ}
    {cs : List (ℕ × ℚ)} (h : faissSearch idx q k = .ok cs) :
    cs.Pairwise (fun a b => a.2 < b.2 ∨ (a.2 = b.2 ∧ a.1 < b.1)) := by
  obtain ⟨-, rfl⟩ := faissSearch_ok_spec h
  have hsorted : (List.insertionSort candLE (distance_all idx q)).Pairwise candLE :=
    List.sorted_insertionSort candLE (distance_all idx q)
  have hperm : (List.insertionSort candLE (distance_all idx q)).Perm
      (distance_all idx q) := List.perm_insertionSort candLE _
  have hnodup0 : ((distance_all idx q).map Prod.fst).Nodup := by
    unfold distance_all
    rw [List.map_map]
    exact List.nodup_enum_map_fst idx.vecs
  have hnodup : ((List.insertionSort candLE (distance_all idx q)).map
      Prod.fst).Nodup := ((hperm.map Prod.fst).symm).nodup hnodup0
  have hne : (List.insertionSort candLE (distance_all idx q)).Pairwise
      (fun a b => a.1 ≠ b.1) := List.pairwise_map.mp hnodup
  refine List.Pairwise.sublist (List.take_sublist k _) ?_
  refine (hsorted.and hne).imp ?_
  rintro a b ⟨hle | ⟨heq, hposle⟩, hne1⟩
  · exact Or.inl hle
  · exact Or.inr ⟨heq, lt_of_le_of_ne hposle hne1⟩

/-- C5: the list `search` returns is ordered by non-increasing similarity
(equivalently non-decreasing squared distance); the candidate list it was
filtered from is ordered by ascending distance with equal-distance entries
in ascending insertion position, and the threshold filter preserves that
relative order. -/
theorem c5_search_ordering (s : Store) (q : List ℚ) (k : ℕ) (t : ℝ)
    (cs : List (ℕ × ℚ)) (r : List Match)
    (hc : faissSearch s.index q (min k (size s)) = .ok cs)
    (hr : search s q k t = .ok r) :
    cs.Pairwise (fun a b => a.2 < b.2 ∨ (a.2 = b.2 ∧ a.1 < b.1)) ∧
    (cs.filter (fun c => simKeep t c.2)).Pairwise
      (fun a b => a.2 < b.2 ∨ (a.2 = b.2 ∧ a.1 < b.1)) ∧
    r.Pairwise (fun a b => a.dist ≤ b.dist ∧ simScore b ≤ simScore a) := by
  have h1 := faissSearch_sorted hc
  have h2 := h1.filter (fun c => simKeep t c.2)
  refine ⟨h1, h2, ?_⟩
  rcases search_ok_spec hr with ⟨rfl, h0⟩ | ⟨cs2, hc2, hrr⟩
  · exact List.Pairwise.nil
  · rw [hc2] at hc
    obtain rfl := Except.ok.inj hc
    subst hrr
    refine h2.map (mkMatch s) ?_
    intro a b hab
    have hle : a.2 ≤ b.2 := by
      rcases hab with hlt | ⟨heq, -⟩
      · exact le_of_lt hlt
      · exact le_of_eq heq
    refine ⟨hle, ?_⟩
    unfold simScore mkMatch
    exact Real.exp_le_exp.mpr (neg_le_neg (by exact_mod_cast hle))

/-- C6: every match `search` returns has similarity at least the threshold
(candidates strictly below it are discarded), and the number of matches is
at most `min top_k (size s)` — possibly 0 — even when the store holds at
least `top_k` entries. -/
theorem c6_threshold_filter (s : Store) (q : List ℚ) (k : ℕ) (t : ℝ)
    (r : List Match) (hr : search s q k t = .ok r) :
    (∀ m ∈ r, t ≤ simScore m) ∧ r.length ≤ min k (size s) := by
  rcases search_ok_spec hr with ⟨rfl, h0⟩ | ⟨cs, hc, rfl⟩
  · exact ⟨fun m hm => absurd hm (List.not_mem_nil m), by simp⟩
  · constructor
    · intro m hm
      obtain ⟨c, hcmem, rfl⟩ := List.mem_map.mp hm
      have hkeep : simKeep t c.2 = true := (List.mem_filter.mp hcmem).2
      have ht := simKeep_iff.mp hkeep
      simpa [simScore, mkMatch] using ht
    · obtain ⟨-, hcs⟩ := faissSearch_ok_spec hc
      calc ((cs.filter (fun c => simKeep t c.2)).map (mkMatch s)).length
          ≤ cs.length := by
            rw [List.length_map]
            exact List.length_filter_le _ _
        _ ≤ min k (size s) := by
            rw [hcs, List.length_take]
            exact min_le_left _ _

/-- C7: on a non-empty store (whose FAISS index has the store's fixed
dimension, as in every reachable state), `search` with a query of the wrong
length fails with the dimension-mismatch error instead of returning
results. -/
theorem c7_search_dimension_guard (s : Store) (q : List ℚ) (k : ℕ) (t : ℝ)
    (h0 : size s ≠ 0) (hd : s.index.d = s.dimension)
    (h : q.length ≠ s.dimension) :
    search s q k t = .error .dimensionMismatch := by
  unfold search
  rw [if_neg h0]
  have hf : faissSearch s.index q (min k (size s)) =
      .error .dimensionMismatch := by
    unfold faissSearch
    rw [if_pos (by rw [hd]; exact h)]
  rw [hf]

end VectorStoreModel

namespace VectorStoreModel

/-- A small concrete store used to instantiate the search theorems: one
2-dimensional vector `[0,0]` stored for product "A". -/
def wStore : Store :=
  { dimension := 2, index := { d := 2, vecs := [[0, 0]] },
    product_ids := ["A"], product_metadata := [] }

theorem wStore_faiss :
    faissSearch wStore.index [0, 0] (min 5 (size wStore)) = .ok [(0, 0)] := by
  norm_num [faissSearch, distance_all, sqDist, List.enum, List.enumFrom,
    List.insertionSort, List.orderedInsert, candLE, wStore, size]

theorem wStore_search :
    search wStore [0, 0] 5 (0 : ℝ) =
      .ok [{ product_id := "A", dist := 0, metadata := [] }] := by
  unfold search
  rw [if_neg (by decide), wStore_faiss]
  simp [List.filter, simKeep_zero, mkMatch, wStore]

theorem c5_witness :
    (faissSearch wStore.index [0, 0] (min 5 (size wStore)) = .ok [(0, 0)] ∧
      search wStore [0, 0] 5 (0 : ℝ) =
        .ok [{ product_id := "A", dist := 0, metadata := [] }]) ∧
    ([((0 : ℕ), (0 : ℚ))].Pairwise
        (fun a b => a.2 < b.2 ∨ (a.2 = b.2 ∧ a.1 < b.1)) ∧
      ([((0 : ℕ), (0 : ℚ))].filter (fun c => simKeep (0 : ℝ) c.2)).Pairwise
        (fun a b => a.2 < b.2 ∨ (a.2 = b.2 ∧ a.1 < b.1)) ∧
      [({ product_id := "A", dist := 0, metadata := [] } : Match)].Pairwise
        (fun a b => a.dist ≤ b.dist ∧ simScore b ≤ simScore a)) :=
  ⟨⟨wStore_faiss, wStore_search⟩,
    c5_search_ordering wStore [0, 0] 5 0 [(0, 0)]
      [{ product_id := "A", dist := 0, metadata := [] }]
      wStore_faiss wStore_search⟩

theorem c6_witness :
    (search wStore [0, 0] 5 (0 : ℝ) =
        .ok [{ product_id := "A", dist := 0, metadata := [] }]) ∧
    ((∀ m ∈ [({ product_id := "A", dist := 0, metadata := [] } : Match)],
        (0 : ℝ) ≤ simScore m) ∧
      [({ product_id := "A", dist := 0, metadata := [] } : Match)].length ≤
        min 5 (size wStore)) :=
  ⟨wStore_search,
    c6_threshold_filter wStore [0, 0] 5 0
      [{ product_id := "A", dist := 0, metadata := [] }] wStore_search⟩

theorem c7_witness :
    (size wStore ≠ 0 ∧ wStore.index.d = wStore.dimension ∧
      ([1] : List ℚ).length ≠ wStore.dimension) ∧
    search wStore [1] 5 (7 / 10 : ℝ) = .error .dimensionMismatch :=
  ⟨⟨by decide, by decide, by decide⟩,
    c7_search_dimension_guard wStore [1] 5 (7 / 10) (by decide) (by decide)
      (by decide)⟩

end VectorStoreModel

namespace VectorStoreModel

/-- `exp 2 > 10/3` (via the decimal bound on `e`). -/
theorem exp_two_gt : (10 : ℝ) / 3 < Real.exp 2 := by
  have h1 : (2.7182818283 : ℝ) < Real.exp 1 := Real.exp_one_gt_d9
  have h2 : Real.exp 2 = Real.exp 1 * Real.exp 1 := by
    rw [← Real.exp_add]; norm_num
  nlinarith [Real.exp_pos 1]

/-- `exp (-2) < 0.3`: the squared-distance-2 candidates fall below the 0.3
threshold. -/
theorem exp_neg_two_lt : Real.exp (-(2 : ℝ)) < 3 / 10 := by
  have h2 := exp_two_gt
  have hpos : (0 : ℝ) < Real.exp 2 := Real.exp_pos 2
  have hinv : Real.exp 2 * (Real.exp 2)⁻¹ = 1 :=
    mul_inv_cancel₀ (ne_of_gt hpos)
  have hip : (0 : ℝ) < (Real.exp 2)⁻¹ := inv_pos.mpr hpos
  rw [Real.exp_neg]
  nlinarith

/-- The store of the spec's concrete scenario: dimension 4, vectors
`[1,0,0,0] → "A"`, `[0,1,0,0] → "B"`, `[0,0,1,0] → "C"`, no metadata. -/
def scenarioStore : Store :=
  { dimension := 4,
    index := { d := 4, vecs := [[1, 0, 0, 0], [0, 1, 0, 0], [0, 0, 1, 0]] },
    product_ids := ["A", "B", "C"], product_metadata := [] }

/-- Building the scenario store by the three `add_product` calls. -/
theorem scenarioStore_built :
    (add_product (freshStore 4) "A" [1, 0, 0, 0] none).bind
        (fun s => (add_product s "B" [0, 1, 0, 0] none).bind
          (fun s => add_product s "C" [0, 0, 1, 0] none)) =
      .ok scenarioStore := by
  decide

/-- The candidate list FAISS returns for the scenario query. -/
theorem scenarioStore_faiss :
    faissSearch scenarioStore.index [1, 0, 0, 0] (min 5 (size scenarioStore)) =
      .ok [(0, 0), (1, 2), (2, 2)] := by
  norm_num [faissSearch, distance_all, sqDist, List.enum, List.enumFrom,
    List.insertionSort, List.orderedInsert, candLE, scenarioStore, size]

/-- C9 counterexample: in the concrete scenario the candidates for "B" and
"C" carry squared L2 distance 2 (FAISS's `IndexFlatL2` does not take the
square root), so their similarity score is `exp (-2) ≈ 0.135` — it is not
`exp (-√2) ≈ 0.243` as the claim states, since `exp` is injective and
`√2 ≠ 2`. -/
theorem c9_counterexample :
    faissSearch scenarioStore.index [1, 0, 0, 0] (min 5 (size scenarioStore)) =
        .ok [(0, 0), (1, 2), (2, 2)] ∧
      Real.exp (-((2 : ℚ) : ℝ)) ≠ Real.exp (-Real.sqrt 2) := by
  refine ⟨scenarioStore_faiss, fun hcontra => ?_⟩
  have h : -((2 : ℚ) : ℝ) = -Real.sqrt 2 := Real.exp_injective hcontra
  have h2 : Real.sqrt 2 = 2 := by push_cast at h; linarith
  have h3 := Real.sq_sqrt (show (0 : ℝ) ≤ 2 by norm_num)
  rw [h2] at h3
  norm_num at h3

/-- C9 (amended): in the scenario store, `search` with query `[1,0,0,0]`,
`top_k = 5`, `threshold = 0.3` returns exactly one match — product "A" with
similarity score `exp (-0) = 1.0`; "B" and "C" are excluded by the
threshold, their similarity being `exp (-2) ≈ 0.135` (their FAISS distance
is the squared L2 distance 2, not `√2`). -/
theorem c9_scenario :
    (add_product (freshStore 4) "A" [1, 0, 0, 0] none).bind
        (fun s => (add_product s "B" [0, 1, 0, 0] none).bind
          (fun s => add_product s "C" [0, 0, 1, 0] none)) =
      .ok scenarioStore ∧
    search scenarioStore [1, 0, 0, 0] 5 (3 / 10 : ℝ) =
      .ok [{ product_id := "A", dist := 0, metadata := [] }] ∧
    simScore { product_id := "A", dist := 0, metadata := [] } = 1 := by
  refine ⟨scenarioStore_built, ?_, by simp [simScore]⟩
  unfold search
  rw [if_neg (by decide), scenarioStore_faiss]
  have k0 : simKeep (3 / 10 : ℝ) 0 = true := by
    apply simKeep_of_le
    push_cast
    rw [neg_zero, Real.exp_zero]
    norm_num
  have k2 : simKeep (3 / 10 : ℝ) 2 = false := by
    apply simKeep_eq_false
    push_cast
    exact exp_neg_two_lt
  simp [List.filter, k0, k2, mkMatch, scenarioStore]

end VectorStoreModel

namespace VectorStoreModel

/-- Every match `search` returns reports the metadata currently recorded
for its product id (defaulting to the empty dict), because metadata is
looked up by id — not by position — when the result is assembled. -/
theorem search_metadata_lookup {s : Store} {q : List ℚ} {k : ℕ} {t : ℝ}
    {r : List Match} (hr : search s q k t = .ok r) :
    ∀ m ∈ r, m.metadata = (List.lookup m.product_id s.product_metadata).getD [] := by
  rcases search_ok_spec hr with ⟨rfl, -⟩ | ⟨cs, -, rfl⟩
  · intro m hm
    exact absurd hm (List.not_mem_nil m)
  · intro m hm
    obtain ⟨c, -, rfl⟩ := List.mem_map.mp hm
    rfl

/-- C10: re-adding an existing product id `p` with non-empty metadata `m2`
appends a new position carrying `p` and overwrites the single metadata
record keyed by `p`, so every match any later search returns with id `p` —
the earlier positions included — reports `m2`: metadata is keyed by product
id and the last (truthy) write for an id wins for all of its entries. -/
theorem c10_metadata_last_write_wins (s : Store) (p : String) (e2 : List ℚ)
    (m2 : Meta) (s' : Store) (_hp : p ∈ s.product_ids) (hm2 : m2 ≠ [])
    (h : add_product s p e2 (some m2) = .ok s') :
    s'.product_ids = s.product_ids ++ [p] ∧
    List.lookup p s'.product_metadata = some m2 ∧
    (∀ q k t r, search s' q k t = .ok r →
      ∀ m ∈ r, m.product_id = p → m.metadata = m2) := by
  obtain ⟨-, -, -, -, hids, -, -, hins⟩ := add_product_ok_spec h
  have hmeta : s'.product_metadata = metaInsert s.product_metadata p m2 :=
    hins m2 rfl (by cases m2 with | nil => exact absurd rfl hm2 | cons a l => rfl)
  have hlook : List.lookup p s'.product_metadata = some m2 := by
    rw [hmeta]
    simp [metaInsert, List.lookup]
  refine ⟨hids, hlook, ?_⟩
  intro q k t r hr m hm hmp
  rw [search_metadata_lookup hr m hm, hmp, hlook]
  rfl

/-- The C10 witness scenario: "A" is already stored with metadata
`name = x`; re-adding "A" with metadata `name = y` gives `wStore2`. -/
def wStore1 : Store :=
  { dimension := 2, index := { d := 2, vecs := [[0, 0]] },
    product_ids := ["A"],
    product_metadata := [("A", [("name", "x")])] }

def wStore2 : Store :=
  { dimension := 2, index := { d := 2, vecs := [[0, 0], [1, 1]] },
    product_ids := ["A", "A"],
    product_metadata := [("A", [("name", "y")]), ("A", [("name", "x")])] }

theorem c10_witness :
    ("A" ∈ wStore1.product_ids ∧ ([("name", "y")] : Meta) ≠ [] ∧
      add_product wStore1 "A" [1, 1] (some [("name", "y")]) = .ok wStore2) ∧
    (wStore2.product_ids = wStore1.product_ids ++ ["A"] ∧
      List.lookup "A" wStore2.product_metadata = some [("name", "y")] ∧
      (∀ q k t r, search wStore2 q k t = .ok r →
        ∀ m ∈ r, m.product_id = "A" → m.metadata = [("name", "y")])) :=
  ⟨⟨by decide, by decide, by decide⟩,
    c10_metadata_last_write_wins wStore1 "A" [1, 1] [("name", "y")] wStore2
      (by decide) (by decide) (by decide)⟩

end VectorStoreModel
